import Mathlib

/-!
Verification of the KStars polar-alignment solver (`PolarAlign`,
`ekos/align/polaralign.cpp` region of the source tree).

The solver's own code (addPoint, findAxis, refreshSolution,
processRefreshCoords, calculateAzAltError, setMaxPixelSearchRange,
pixelError and the anonymous-namespace grid search getResidual /
getBestRotation / getRotationAngles) is embedded below directly from the
source.  C++ doubles are modelled as real numbers, C++ loops as folds over
explicitly constructed sample lists, out-parameter returns as tuples, and
fallible calls as Option.

The low-level rotation kernel (`rotations.cpp`) and the plane-normal fit
(`poleaxis.cpp`) are part of this repository but are not among the source
files provided; they are modelled from the specification (spec sections 4.1
and 4.2), as are the external collaborators (WCS pixel mapper, time source,
geographic location, spec section 6).  Each such definition carries a doc
comment starting with "Modelled from the spec:".

Coordinate convention used for the spec-modelled kernel: a right-handed
frame with x pointing to the north horizon (azimuth 0), y pointing west,
z up; azimuth increases from north towards east, so azimuth is a negative
rotation about the z axis in this frame.  This is the unique convention
(up to isometry) consistent with the uses in the provided source: the
hemisphere disambiguation in findAxis tests the sign of the axis's x
component, and refreshSolution's correction pass feeds the positive error
values to rotateAroundY / rotateAroundZ while its comment describes the
rotation as being by minus the errors (the coordinate effect of these
rotations on azimuth/altitude is the negation of the parameter, proved in
the lemmas rotateAroundY_azAlt and rotateAroundZ_azAlt below).
-/

/-- Three-component real vector, embedding of `Rotations::V3`. -/
@[ext]
structure V3 where
  x : ℝ
  y : ℝ
  z : ℝ

namespace V3

/-- Dot product of two vectors. -/
def dot (a b : V3) : ℝ := a.x * b.x + a.y * b.y + a.z * b.z

/-- Cross product of two vectors. -/
def cross (a b : V3) : V3 :=
  ⟨a.y * b.z - a.z * b.y, a.z * b.x - a.x * b.z, a.x * b.y - a.y * b.x⟩

/-- Componentwise difference. -/
def sub (a b : V3) : V3 := ⟨a.x - b.x, a.y - b.y, a.z - b.z⟩

/-- Scalar multiple. -/
def scale (c : ℝ) (a : V3) : V3 := ⟨c * a.x, c * a.y, c * a.z⟩

/-- Componentwise negation, embedding of `V3(-axis.x(), -axis.y(), -axis.z())`. -/
def neg (a : V3) : V3 := ⟨-a.x, -a.y, -a.z⟩

/-- Euclidean length, embedding of `V3::length()`. -/
noncomputable def length (a : V3) : ℝ := Real.sqrt (a.x ^ 2 + a.y ^ 2 + a.z ^ 2)

end V3

namespace Rotations

/-- Degrees to radians. -/
noncomputable def d2r (degrees : ℝ) : ℝ := degrees * Real.pi / 180

/-- Radians to degrees. -/
noncomputable def r2d (radians : ℝ) : ℝ := radians * 180 / Real.pi

/-- Modelled from the spec: `toCartesian(az, alt)` of `rotations.cpp`
(`Rotations::azAlt2xyz`, not among the provided source files), the standard
spherical-to-Cartesian mapping under the fixed right-handed
north/west/up convention described at the top of this file. -/
noncomputable def azAlt2xyz (azAlt : ℝ × ℝ) : V3 :=
  let az := d2r azAlt.1
  let alt := d2r azAlt.2
  ⟨Real.cos alt * Real.cos az, -(Real.cos alt * Real.sin az), Real.sin alt⟩

/-- Modelled from the spec: `toSpherical` of `rotations.cpp`
(`Rotations::xyz2azAlt`, not among the provided source files), the inverse
mapping, returning azimuth 0 at the poles (zero-length horizontal
projection, where `Complex.arg 0 = 0`). -/
noncomputable def xyz2azAlt (p : V3) : ℝ × ℝ :=
  (r2d (Complex.arg ⟨p.x, -p.y⟩), r2d (Real.arcsin (p.z / p.length)))

/-- Modelled from the spec: `rotateAroundY` of `rotations.cpp` (not among
the provided source files), the standard rotation about the y axis. -/
noncomputable def rotateAroundY (p : V3) (degrees : ℝ) : V3 :=
  let t := d2r degrees
  ⟨p.x * Real.cos t + p.z * Real.sin t, p.y, -(p.x * Real.sin t) + p.z * Real.cos t⟩

/-- Modelled from the spec: `rotateAroundZ` of `rotations.cpp` (not among
the provided source files), the standard rotation about the z axis. -/
noncomputable def rotateAroundZ (p : V3) (degrees : ℝ) : V3 :=
  let t := d2r degrees
  ⟨p.x * Real.cos t - p.y * Real.sin t, p.x * Real.sin t + p.y * Real.cos t, p.z⟩

/-- Modelled from the spec: `rotateAroundAxis` of `rotations.cpp` (not
among the provided source files), Rodrigues' rotation formula about an
arbitrary unit axis. -/
noncomputable def rotateAroundAxis (p axis : V3) (degrees : ℝ) : V3 :=
  let t := d2r degrees
  let c := Real.cos t
  let s := Real.sin t
  let cr := V3.cross axis p
  let d := V3.dot axis p
  ⟨p.x * c + cr.x * s + axis.x * d * (1 - c),
   p.y * c + cr.y * s + axis.y * d * (1 - c),
   p.z * c + cr.z * s + axis.z * d * (1 - c)⟩

/-- Modelled from the spec: `angleBetween` of `rotations.cpp`
(`Rotations::getAngle`, not among the provided source files), great-circle
angular separation in degrees, in the interval from 0 to 180. -/
noncomputable def getAngle (a b : V3) : ℝ :=
  r2d (Real.arccos (V3.dot a b / (a.length * b.length)))

/-- Modelled from the spec: the normalization step of the plane-normal fit
(`poleaxis.cpp`, not among the provided source files): divide a vector by
its length; a zero vector cannot be normalized and is returned as is
(the caller detects this with the length < 0.9 test). -/
noncomputable def normalized (v : V3) : V3 :=
  if v.length = 0 then v else V3.scale (1 / v.length) v

/-- Modelled from the spec: `Rotations::getAxis` / `estimateAxis`'s fit
step (`poleaxis.cpp`, not among the provided source files): the normal of
the plane through the three sample points, computed from the two chord
vectors p2 - p1 and p3 - p2 via their cross product, normalized. -/
noncomputable def getAxis (p1 p2 p3 : V3) : V3 :=
  normalized (V3.cross (V3.sub p2 p1) (V3.sub p3 p2))

end Rotations

/-- Session state of the solver, embedding of the `PolarAlign` class
members: the sample sequence `points` (each sample's azimuth/altitude in
degrees; the external plate solve and time transformation that produce
them are out of scope per spec section 6), the capture-time sequence
`times` (seconds; `KStarsDateTime::secsTo` becomes subtraction), the axis
estimate `azimuthCenter` / `altitudeCenter`, the pixel-search range bound
`maxPixelSearchRange`, and the observer's latitude in degrees
(`geoLocation`, `none` modelling a null location pointer). -/
structure PolarAlign where
  points : List (ℝ × ℝ)
  times : List ℝ
  azimuthCenter : ℝ
  altitudeCenter : ℝ
  maxPixelSearchRange : ℝ
  geoLat : Option ℝ

namespace PolarAlign

/-- Embedding of `PolarAlign::northernHemisphere`: true when the location
is missing, otherwise latitude > 0. -/
noncomputable def northernHemisphere (s : PolarAlign) : Bool :=
  match s.geoLat with
  | none => true
  | some l => if l > 0 then true else false

/-- Latitude in degrees as read by `geoLocation->lat()->Degrees()`
(a missing location is modelled as latitude 0; the C++ would dereference
null there, and no claim concerns that path). -/
def latDegrees (s : PolarAlign) : ℝ := s.geoLat.getD 0

/-- Embedding of `PolarAlign::reset`. -/
def reset (s : PolarAlign) : PolarAlign := { s with points := [], times := [] }

/-- Embedding of `PolarAlign::addPoint`.  The external plate solve of the
image center (`prepareAzAlt`, spec section 6) is abstracted: `solveOk`
tells whether it succeeded and `coords`/`time` are the solved center
coordinates and the image's capture time. -/
def addPoint (s : PolarAlign) (coords : ℝ × ℝ) (time : ℝ) (solveOk : Bool) :
    Bool × PolarAlign :=
  if !solveOk then (false, s)
  else if s.points.length > 2 then (false, s)
  else (true, { s with points := s.points ++ [coords], times := s.times ++ [time] })

/-- Closed form of the azimuth normalization loop
`while (*azError > 180.0) *azError -= 360;` of the source: values of at
most 180 are unchanged; larger values have the least multiple of 360
subtracted that brings them to at most 180. -/
noncomputable def reduceAz (a : ℝ) : ℝ :=
  if a ≤ 180 then a else a - 360 * ⌈(a - 180) / 360⌉

/-- Embedding of `PolarAlign::calculateAzAltError` (returns the pair of
azimuth error and altitude error). -/
noncomputable def calculateAzAltError (s : PolarAlign) : ℝ × ℝ :=
  let latitudeDegrees := s.latDegrees
  let altError :=
    if s.northernHemisphere then s.altitudeCenter - latitudeDegrees
    else s.altitudeCenter + latitudeDegrees
  let azError :=
    if s.northernHemisphere then s.azimuthCenter else s.azimuthCenter + 180
  (reduceAz azError, altError)

/-- Embedding of the hemisphere disambiguation step of
`PolarAlign::findAxis`: flip the fitted axis when it points towards the
wrong celestial hemisphere. -/
noncomputable def flipAxis (north : Bool) (axis : V3) : V3 :=
  if (north = true ∧ axis.x < 0) ∨ (north = false ∧ axis.x > 0) then V3.neg axis
  else axis

/-- Embedding of `PolarAlign::findAxis`: fails (leaving the state
unchanged) unless exactly three samples are stored and the fitted normal
has length at least 0.9; on success stores the axis estimate. -/
noncomputable def findAxis (s : PolarAlign) : Bool × PolarAlign :=
  if s.points.length ≠ 3 then (false, s)
  else
    let p1 := Rotations.azAlt2xyz (s.points.getD 0 (0, 0))
    let p2 := Rotations.azAlt2xyz (s.points.getD 1 (0, 0))
    let p3 := Rotations.azAlt2xyz (s.points.getD 2 (0, 0))
    let axis := Rotations.getAxis p1 p2 p3
    if axis.length < 0.9 then (false, s)
    else
      let axis2 := flipAxis s.northernHemisphere axis
      let azAlt := Rotations.xyz2azAlt axis2
      (true, { s with azimuthCenter := azAlt.1, altitudeCenter := azAlt.2 })

/-- Seconds of the sampled grid of a C++ loop
`for (double v = start - range; v <= start + range; v += inc)` in exact
real arithmetic: the values start - range + k * inc for natural k while
the loop condition v <= start + range holds. -/
noncomputable def gridLE (start range inc : ℝ) : List ℝ :=
  (List.range (⌊2 * range / inc⌋.toNat + 1)).map (fun k : ℕ => start - range + (k : ℝ) * inc)

/-- The (thetaY, thetaZ) pairs visited by the two nested loops of
`getBestRotation`, outer loop over thetaY, inner over thetaZ. -/
noncomputable def rotationPairs (zStart yStart range inc : ℝ) : List (ℝ × ℝ) :=
  (gridLE yStart range inc).flatMap fun y =>
    (gridLE zStart range inc).map fun z => (y, z)

/-- Embedding of the file-local `getResidual`: distance in absolute-value
degrees between `fromV` rotated around Y by `yAngle` then around Z by
`zAngle`, and `goal`.  (`from` is a reserved word in Lean, hence `fromV`.) -/
noncomputable def getResidual (fromV : V3) (yAngle zAngle : ℝ) (goal : V3) : ℝ :=
  |Rotations.getAngle (Rotations.rotateAroundZ (Rotations.rotateAroundY fromV yAngle) zAngle) goal|

/-- One step of `getBestRotation`'s loop body: keep the accumulator
(best (thetaY, thetaZ) pair and its residual) unless the candidate's
residual is strictly smaller. -/
noncomputable def bestStep (fromV goal : V3) (acc : (ℝ × ℝ) × ℝ) (p : ℝ × ℝ) :
    (ℝ × ℝ) × ℝ :=
  let d := getResidual fromV p.1 p.2 goal
  if d < acc.2 then (p, d) else acc

/-- Embedding of the file-local `getBestRotation`: grid search over all
(thetaY, thetaZ) pairs in a square of half-width |range| around
(yStart, zStart) sampled at `increment`, returning the best pair
(initially (0, 0)) and the minimal residual (initially 1e8). -/
noncomputable def getBestRotation (fromV goal : V3) (zStart yStart range increment : ℝ) :
    (ℝ × ℝ) × ℝ :=
  (rotationPairs zStart yStart |range| increment).foldl (bestStep fromV goal)
    (((0 : ℝ), (0 : ℝ)), 1e8)

/-- Embedding of the file-local `getRotationAngles`: two-pass grid search
for the Y and Z rotations carrying `fromV` to `goal`; returns the best
(thetaY, thetaZ) pair of the second pass and its residual. -/
noncomputable def getRotationAngles (fromV goal : V3) : (ℝ × ℝ) × ℝ :=
  let pass1Resolution : ℝ := 1 / 60
  let pass2Resolution : ℝ := 5 / 3600
  let pass2Range : ℝ := 4 / 60
  let rotationAngle := Rotations.getAngle fromV goal
  let pass1Range := max 1 (min 10 (2.5 * |rotationAngle|))
  let r1 := getBestRotation fromV goal 0 0 pass1Range pass1Resolution
  getBestRotation fromV goal r1.1.2 r1.1.1 pass2Range pass2Resolution

/-- Embedding of `PolarAlign::processRefreshCoords`.  The conversion of
the refresh image's RA/DEC solution to current azimuth/altitude
(`apparentCoord` / `timeTransformed`) goes through the external time
source (spec section 6) and is abstracted: `newAzAlt` is the converted
azimuth/altitude of the refresh image's center and `time` its capture
time in seconds.  Returns ((azError, altError), (azAdjustment,
altAdjustment)) on success.  The third sample and its capture time are
read unconditionally (modelled by getD with a junk default, mirroring the
unchecked `points[2]` / `times[2]` accesses). -/
noncomputable def processRefreshCoords (s : PolarAlign) (newAzAlt : ℝ × ℝ) (time : ℝ) :
    Option ((ℝ × ℝ) × (ℝ × ℝ)) :=
  let newPoint := Rotations.azAlt2xyz newAzAlt
  let p3secs := time - s.times.getD 2 0
  let p3Angle := (-15.041067 * p3secs) / 3600
  let p3OrigPoint := Rotations.azAlt2xyz (s.points.getD 2 (0, 0))
  let origAxisPt := Rotations.azAlt2xyz (s.azimuthCenter, s.altitudeCenter)
  let point3 := Rotations.rotateAroundAxis p3OrigPoint origAxisPt p3Angle
  let r := getRotationAngles point3 newPoint
  if r.2 > 0.5 then none
  else
    let yAdjustment := r.1.1
    let zAdjustment := r.1.2
    let origAxisPoint := Rotations.azAlt2xyz (s.azimuthCenter, s.altitudeCenter)
    let tempPoint := Rotations.rotateAroundY origAxisPoint yAdjustment
    let newAxisPoint := Rotations.rotateAroundZ tempPoint zAdjustment
    let newAxisAzAlt := Rotations.xyz2azAlt newAxisPoint
    let latitudeDegrees := s.latDegrees
    let altError :=
      if s.northernHemisphere then newAxisAzAlt.2 - latitudeDegrees
      else newAxisAzAlt.2 + latitudeDegrees
    let azError :=
      if s.northernHemisphere then newAxisAzAlt.1 else newAxisAzAlt.1 + 180
    some ((reduceAz azError, altError), (zAdjustment, yAdjustment))

/-- Embedding of `PolarAlign::setMaxPixelSearchRange`. -/
noncomputable def setMaxPixelSearchRange (s : PolarAlign) (degrees : ℝ) : PolarAlign :=
  let d := |degrees|
  if d < 2 then { s with maxPixelSearchRange := 2 }
  else if d > 10 then { s with maxPixelSearchRange := 10 }
  else { s with maxPixelSearchRange := d }

/-- Values of the sampled grid of a C++ loop
`for (double v = lo; v < hi; v += inc)` (strict bound, as in the pixel
search) in exact real arithmetic. -/
noncomputable def gridLT (lo hi inc : ℝ) : List ℝ :=
  (List.range ⌈(hi - lo) / inc⌉.toNat).map (fun k : ℕ => lo + (k : ℝ) * inc)

/-- The (eAz, eAlt) pairs visited by the two nested loops of the
grid-search overload of `PolarAlign::pixelError`. -/
noncomputable def pixelPairs (minAz maxAz azInc minAlt maxAlt altInc : ℝ) :
    List (ℝ × ℝ) :=
  (gridLT minAz maxAz azInc).flatMap fun a =>
    (gridLT minAlt maxAlt altInc).map fun b => (a, b)

/-- One step of the pixel grid search: evaluate `findCorrectedPixel`
(abstracted as `f`, since it goes through the external WCS mapper) at the
candidate offsets and keep the accumulator (((azError, altError),
actualPixel), minDistSq) unless the candidate's squared pixel distance to
`pixel2` is strictly smaller. -/
noncomputable def pixelStep (f : ℝ → ℝ → Option (ℝ × ℝ)) (pixel2 : ℝ × ℝ)
    (acc : ((ℝ × ℝ) × (ℝ × ℝ)) × ℝ) (e : ℝ × ℝ) : ((ℝ × ℝ) × (ℝ × ℝ)) × ℝ :=
  match f e.1 e.2 with
  | none => acc
  | some pix =>
    let distSq := (pix.1 - pixel2.1) ^ 2 + (pix.2 - pixel2.2) ^ 2
    if distSq < acc.2 then ((e, pix), distSq) else acc

/-- Embedding of the grid-search overload of `PolarAlign::pixelError`
(the one taking min/max/inc bounds): nested loop over (eAz, eAlt)
candidates keeping the best; the caller's previous (azError, altError)
and actualPixel values are kept when no candidate improves on them, but
minDistSq restarts at 1e9 on every call.  `f eAz eAlt` abstracts
`findCorrectedPixel(image, pixel, &pix, eAz, eAlt)` (external WCS mapper,
spec section 6). -/
noncomputable def pixelErrorSearch (f : ℝ → ℝ → Option (ℝ × ℝ)) (pixel2 : ℝ × ℝ)
    (minAz maxAz azInc minAlt maxAlt altInc : ℝ)
    (init : (ℝ × ℝ) × (ℝ × ℝ)) : ((ℝ × ℝ) × (ℝ × ℝ)) × ℝ :=
  (pixelPairs minAz maxAz azInc minAlt maxAlt altInc).foldl (pixelStep f pixel2)
    (init, 1e9)

/-- Embedding of the three-pass overload of `PolarAlign::pixelError`:
coarse pass over plus-minus maxPixelSearchRange at resolution 0.2, then
plus-minus 0.2 at 0.02, then plus-minus 0.02 at 0.002, each centered on
the previous best; fails when the best candidate's corrected pixel is
more than 10 pixels from `pixel2`.  (The initial `calculateAzAltError`
call of the source is dead code - its results are never read - and is
omitted.) -/
noncomputable def pixelError (s : PolarAlign) (f : ℝ → ℝ → Option (ℝ × ℝ))
    (pixel2 : ℝ × ℝ) : Option (ℝ × ℝ) :=
  let r := s.maxPixelSearchRange
  let s1 := pixelErrorSearch f pixel2 (-r) r 0.2 (-r) r 0.2 ((0, 0), (0, 0))
  let e1 := s1.1.1
  let s2 := pixelErrorSearch f pixel2 (e1.1 - 0.2) (e1.1 + 0.2) 0.02
      (e1.2 - 0.2) (e1.2 + 0.2) 0.02 s1.1
  let e2 := s2.1.1
  let s3 := pixelErrorSearch f pixel2 (e2.1 - 0.02) (e2.1 + 0.02) 0.002
      (e2.2 - 0.02) (e2.2 + 0.02) 0.002 s2.1
  let pix := s3.1.2
  let pixDist := Real.sqrt ((pix.1 - pixel2.1) ^ 2 + (pix.2 - pixel2.2) ^ 2)
  if pixDist > 10 then none
  else some s3.1.1

/-- Embedding of `PolarAlign::refreshSolution`: fails unless exactly three
samples are stored; otherwise rotates the third sample's Cartesian point
around Y by the altitude error and then around Z by the azimuth error and
returns the az/alt of the resulting solution direction together with the
altitude-only variant (the subsequent conversion of these az/alt values to
RA/DEC goes through the external time source and is out of scope per spec
section 6). -/
noncomputable def refreshSolution (s : PolarAlign) : Option ((ℝ × ℝ) × (ℝ × ℝ)) :=
  if s.points.length ≠ 3 then none
  else
    let errs := calculateAzAltError s
    let point3 := Rotations.azAlt2xyz (s.points.getD 2 (0, 0))
    let altSolutionPoint := Rotations.rotateAroundY point3 errs.2
    let solutionPoint := Rotations.rotateAroundZ altSolutionPoint errs.1
    some (Rotations.xyz2azAlt solutionPoint, Rotations.xyz2azAlt altSolutionPoint)

end PolarAlign

namespace PolarAlign

/-- Shared error formula of the spec (section 4.3): altitude error is the
axis altitude minus the latitude in the north and plus it in the south;
azimuth error is the axis azimuth (plus 180 degrees in the south) with the
normalization loop applied.  Both `calculateAzAltError` and the tail of
`processRefreshCoords` are proved equal to this one formula. -/
noncomputable def axisAzAltError (north : Bool) (axisAz axisAlt lat : ℝ) : ℝ × ℝ :=
  (reduceAz (if north then axisAz else axisAz + 180),
   if north then axisAlt - lat else axisAlt + lat)

/-- The third sample's Cartesian point rotated around the original axis
estimate by the sidereal angle accumulated since its capture, as computed
at the head of `processRefreshCoords`. -/
noncomputable def projectedThirdSample (s : PolarAlign) (time : ℝ) : V3 :=
  Rotations.rotateAroundAxis (Rotations.azAlt2xyz (s.points.getD 2 (0, 0)))
    (Rotations.azAlt2xyz (s.azimuthCenter, s.altitudeCenter))
    ((-15.041067 * (time - s.times.getD 2 0)) / 3600)

/-- Everything `processRefreshCoords` does after the time projection of
the third sample: the two-pass adjustment search, the failure test, the
rotation of the original axis by the found adjustments and the error
computation. -/
noncomputable def refreshFromProjected (s : PolarAlign) (point3 newPoint : V3) :
    Option ((ℝ × ℝ) × (ℝ × ℝ)) :=
  let r := getRotationAngles point3 newPoint
  if r.2 > 0.5 then none
  else
    let yAdjustment := r.1.1
    let zAdjustment := r.1.2
    let origAxisPoint := Rotations.azAlt2xyz (s.azimuthCenter, s.altitudeCenter)
    let tempPoint := Rotations.rotateAroundY origAxisPoint yAdjustment
    let newAxisPoint := Rotations.rotateAroundZ tempPoint zAdjustment
    let newAxisAzAlt := Rotations.xyz2azAlt newAxisPoint
    let latitudeDegrees := s.latDegrees
    let altError :=
      if s.northernHemisphere then newAxisAzAlt.2 - latitudeDegrees
      else newAxisAzAlt.2 + latitudeDegrees
    let azError :=
      if s.northernHemisphere then newAxisAzAlt.1 else newAxisAzAlt.1 + 180
    some ((reduceAz azError, altError), (zAdjustment, yAdjustment))

/-- Residual angular error of the best fit found by the refresh search of
`processRefreshCoords`. -/
noncomputable def refreshResidual (s : PolarAlign) (newAzAlt : ℝ × ℝ) (time : ℝ) : ℝ :=
  (getRotationAngles (projectedThirdSample s time) (Rotations.azAlt2xyz newAzAlt)).2

/-- Azimuth/altitude of the new axis estimate produced inside
`processRefreshCoords` (original axis rotated by the found Y and Z
adjustments). -/
noncomputable def refreshNewAxis (s : PolarAlign) (newAzAlt : ℝ × ℝ) (time : ℝ) : ℝ × ℝ :=
  let r := getRotationAngles (projectedThirdSample s time) (Rotations.azAlt2xyz newAzAlt)
  Rotations.xyz2azAlt
    (Rotations.rotateAroundZ
      (Rotations.rotateAroundY
        (Rotations.azAlt2xyz (s.azimuthCenter, s.altitudeCenter)) r.1.1) r.1.2)

/-- Pixel distance between the best candidate's corrected pixel of the
three-pass `pixelError` search and `pixel2`. -/
noncomputable def pixelFinalDist (s : PolarAlign) (f : ℝ → ℝ → Option (ℝ × ℝ))
    (pixel2 : ℝ × ℝ) : ℝ :=
  let r := s.maxPixelSearchRange
  let s1 := pixelErrorSearch f pixel2 (-r) r 0.2 (-r) r 0.2 ((0, 0), (0, 0))
  let e1 := s1.1.1
  let s2 := pixelErrorSearch f pixel2 (e1.1 - 0.2) (e1.1 + 0.2) 0.02
      (e1.2 - 0.2) (e1.2 + 0.2) 0.02 s1.1
  let e2 := s2.1.1
  let s3 := pixelErrorSearch f pixel2 (e2.1 - 0.02) (e2.1 + 0.02) 0.002
      (e2.2 - 0.02) (e2.2 + 0.02) 0.002 s2.1
  Real.sqrt ((s3.1.2.1 - pixel2.1) ^ 2 + (s3.1.2.2 - pixel2.2) ^ 2)

/-- In-bounds condition for the unchecked `points[2]` / `times[2]` reads
performed by `processRefreshCoords`. -/
def refreshReadsInBounds (s : PolarAlign) : Prop :=
  2 < s.points.length ∧ 2 < s.times.length

end PolarAlign

/-! Helper lemmas about the embedded definitions. -/

namespace Rotations

lemma d2r_zero : d2r 0 = 0 := by
  unfold d2r
  ring

lemma d2r_sub (a b : ℝ) : d2r (a - b) = d2r a - d2r b := by
  unfold d2r
  ring

/-- A Y rotation by parameter t moves a point of the meridian plane
(azimuth 0) down in altitude by t: its coordinate effect is a rotation by
minus t in the azimuth/altitude sense. -/
lemma rotateAroundY_azAlt (alt t : ℝ) :
    rotateAroundY (azAlt2xyz (0, alt)) t = azAlt2xyz (0, alt - t) := by
  unfold rotateAroundY azAlt2xyz
  ext <;>
    simp [d2r_sub, d2r_zero, Real.cos_sub, Real.sin_sub] <;>
    ring

/-- A Z rotation by parameter t decreases azimuth by t and keeps altitude:
its coordinate effect is a rotation by minus t in the azimuth sense. -/
lemma rotateAroundZ_azAlt (az alt t : ℝ) :
    rotateAroundZ (azAlt2xyz (az, alt)) t = azAlt2xyz (az - t, alt) := by
  unfold rotateAroundZ azAlt2xyz
  ext <;>
    simp [d2r_sub, Real.cos_sub, Real.sin_sub] <;>
    ring

lemma r2d_nonneg {r : ℝ} (h : 0 ≤ r) : 0 ≤ r2d r := by
  unfold r2d
  positivity

lemma r2d_le_180 {r : ℝ} (h : r ≤ Real.pi) : r2d r ≤ 180 := by
  unfold r2d
  rw [div_le_iff Real.pi_pos]
  nlinarith [Real.pi_pos]

lemma getAngle_nonneg (a b : V3) : 0 ≤ getAngle a b :=
  r2d_nonneg (Real.arccos_nonneg _)

lemma getAngle_le_180 (a b : V3) : getAngle a b ≤ 180 :=
  r2d_le_180 (Real.arccos_le_pi _)

lemma length_scale (c : ℝ) (v : V3) : (V3.scale c v).length = |c| * v.length := by
  unfold V3.length V3.scale
  rw [show (c * v.x) ^ 2 + (c * v.y) ^ 2 + (c * v.z) ^ 2
        = c ^ 2 * (v.x ^ 2 + v.y ^ 2 + v.z ^ 2) by ring,
    Real.sqrt_mul (sq_nonneg c), Real.sqrt_sq_eq_abs]

lemma length_nonneg (v : V3) : 0 ≤ v.length := Real.sqrt_nonneg _

lemma length_normalized {v : V3} (h : v.length ≠ 0) : (normalized v).length = 1 := by
  have hpos : 0 < v.length := lt_of_le_of_ne (length_nonneg v) (Ne.symm h)
  unfold normalized
  rw [if_neg h, length_scale, abs_of_pos (one_div_pos.mpr hpos), one_div,
    inv_mul_cancel₀ h]

end Rotations

namespace PolarAlign

lemma reduceAz_le (a : ℝ) : reduceAz a ≤ 180 := by
  unfold reduceAz
  split
  · assumption
  · rename_i h
    have h1 : (a - 180) / 360 ≤ (⌈(a - 180) / 360⌉ : ℝ) := Int.le_ceil _
    nlinarith

lemma reduceAz_eq_of_le {a : ℝ} (h : a ≤ 180) : reduceAz a = a := by
  unfold reduceAz
  rw [if_pos h]

lemma reduceAz_gt {a : ℝ} (h : -180 < a) : -180 < reduceAz a := by
  unfold reduceAz
  split
  · exact h
  · rename_i h2
    have h1 : (⌈(a - 180) / 360⌉ : ℝ) < (a - 180) / 360 + 1 := Int.ceil_lt_add_one _
    nlinarith

lemma reduceAz_sub_multiple (a : ℝ) : ∃ k : ℤ, 0 ≤ k ∧ reduceAz a = a - 360 * k := by
  unfold reduceAz
  split
  · exact ⟨0, le_refl 0, by push_cast; ring⟩
  · rename_i h
    refine ⟨⌈(a - 180) / 360⌉, Int.ceil_nonneg (by nlinarith), rfl⟩

end PolarAlign

namespace PolarAlign

lemma mem_gridLE {start range inc v : ℝ} (k : ℕ)
    (hk : k ≤ (⌊2 * range / inc⌋).toNat) (hv : v = start - range + k * inc) :
    v ∈ gridLE start range inc := by
  unfold gridLE
  simp only [List.mem_map, List.mem_range]
  exact ⟨k, Nat.lt_succ_of_le hk, hv.symm⟩

lemma gridLE_head (start range inc : ℝ) : (start - range) ∈ gridLE start range inc :=
  mem_gridLE 0 (Nat.zero_le _) (by push_cast; ring)

lemma mem_gridLE_bounds {start range inc v : ℝ} (hr : 0 ≤ range) (hinc : 0 < inc)
    (hv : v ∈ gridLE start range inc) : start - range ≤ v ∧ v ≤ start + range := by
  unfold gridLE at hv
  simp only [List.mem_map, List.mem_range] at hv
  obtain ⟨k, hk, rfl⟩ := hv
  have hk2 : k ≤ (⌊2 * range / inc⌋).toNat := by omega
  constructor
  · have : (0 : ℝ) ≤ (k : ℝ) * inc := mul_nonneg (Nat.cast_nonneg k) hinc.le
    linarith
  · have hq : (0 : ℝ) ≤ 2 * range / inc := by positivity
    have hkz : (k : ℤ) ≤ ⌊2 * range / inc⌋ :=
      (Int.le_toNat (Int.floor_nonneg.mpr hq)).mp hk2
    have hkr : (k : ℝ) ≤ ((⌊2 * range / inc⌋ : ℤ) : ℝ) := by exact_mod_cast hkz
    have h2 : (k : ℝ) ≤ 2 * range / inc := le_trans hkr (Int.floor_le _)
    have h3 : (k : ℝ) * inc ≤ 2 * range := by
      rw [le_div_iff₀ hinc] at h2
      linarith
    linarith

lemma mem_rotationPairs {zStart yStart range inc : ℝ} {y z : ℝ}
    (hy : y ∈ gridLE yStart range inc) (hz : z ∈ gridLE zStart range inc) :
    (y, z) ∈ rotationPairs zStart yStart range inc := by
  unfold rotationPairs
  exact List.mem_flatMap.mpr ⟨y, hy, List.mem_map.mpr ⟨z, hz, rfl⟩⟩

lemma getResidual_nonneg (fromV : V3) (yAngle zAngle : ℝ) (goal : V3) :
    0 ≤ getResidual fromV yAngle zAngle goal := abs_nonneg _

lemma getResidual_le_180 (fromV : V3) (yAngle zAngle : ℝ) (goal : V3) :
    getResidual fromV yAngle zAngle goal ≤ 180 := by
  unfold getResidual
  rw [abs_of_nonneg (Rotations.getAngle_nonneg _ _)]
  exact Rotations.getAngle_le_180 _ _

/-- Behaviour of the inner loop of `getBestRotation`: folding `bestStep`
over a candidate list either keeps the initial accumulator or lands on a
visited pair together with its residual, never increases the tracked
minimum, and ends at most the residual of every visited pair. -/
lemma foldl_bestStep_spec (fromV goal : V3) (l : List (ℝ × ℝ)) (acc : (ℝ × ℝ) × ℝ) :
    (l.foldl (bestStep fromV goal) acc = acc ∨
      ((l.foldl (bestStep fromV goal) acc).1 ∈ l ∧
        (l.foldl (bestStep fromV goal) acc).2 =
          getResidual fromV (l.foldl (bestStep fromV goal) acc).1.1
            (l.foldl (bestStep fromV goal) acc).1.2 goal)) ∧
    (l.foldl (bestStep fromV goal) acc).2 ≤ acc.2 ∧
    ∀ p ∈ l, (l.foldl (bestStep fromV goal) acc).2 ≤ getResidual fromV p.1 p.2 goal := by
  induction l generalizing acc with
  | nil => exact ⟨Or.inl rfl, le_refl _, by simp⟩
  | cons p l ih =>
    rw [List.foldl_cons]
    obtain ⟨ih1, ih2, ih3⟩ := ih (bestStep fromV goal acc p)
    have hstep2 : (bestStep fromV goal acc p).2 ≤ acc.2 := by
      simp only [bestStep]
      split
      · exact le_of_lt (by assumption)
      · exact le_refl _
    have hstepP : (bestStep fromV goal acc p).2 ≤ getResidual fromV p.1 p.2 goal := by
      simp only [bestStep]
      split
      · exact le_refl _
      · exact le_of_not_lt (by assumption)
    refine ⟨?_, le_trans ih2 hstep2, ?_⟩
    · rcases ih1 with h | h
      · rw [h]
        simp only [bestStep]
        split
        · exact Or.inr ⟨List.mem_cons_self _ _, rfl⟩
        · exact Or.inl rfl
      · exact Or.inr ⟨List.mem_cons_of_mem _ h.1, h.2⟩
    · intro q hq
      rcases List.mem_cons.mp hq with rfl | hq
      · exact le_trans ih2 hstepP
      · exact ih3 q hq

/-- The result of `getBestRotation` is a pair of the sampled grid, its
reported residual is that pair's residual, and no sampled pair has a
smaller residual. -/
lemma getBestRotation_spec (fromV goal : V3) (zStart yStart range inc : ℝ) :
    (getBestRotation fromV goal zStart yStart range inc).1 ∈
        rotationPairs zStart yStart |range| inc ∧
    (getBestRotation fromV goal zStart yStart range inc).2 =
      getResidual fromV (getBestRotation fromV goal zStart yStart range inc).1.1
        (getBestRotation fromV goal zStart yStart range inc).1.2 goal ∧
    ∀ p ∈ rotationPairs zStart yStart |range| inc,
      (getBestRotation fromV goal zStart yStart range inc).2 ≤
        getResidual fromV p.1 p.2 goal := by
  have hmem : ((yStart - |range|), (zStart - |range|)) ∈
      rotationPairs zStart yStart |range| inc :=
    mem_rotationPairs (gridLE_head _ _ _) (gridLE_head _ _ _)
  unfold getBestRotation
  obtain ⟨h1, _, h3⟩ :=
    foldl_bestStep_spec fromV goal (rotationPairs zStart yStart |range| inc)
      (((0 : ℝ), (0 : ℝ)), 1e8)
  rcases h1 with h | h
  · exfalso
    have hle := h3 _ hmem
    rw [h] at hle
    have := getResidual_le_180 fromV (yStart - |range|) (zStart - |range|) goal
    norm_num at hle
    linarith
  · exact ⟨h.1, h.2, h3⟩

end PolarAlign

namespace PolarAlign

lemma mem_gridLT {lo hi inc v : ℝ} (k : ℕ)
    (hk : k < (⌈(hi - lo) / inc⌉).toNat) (hv : v = lo + k * inc) :
    v ∈ gridLT lo hi inc := by
  unfold gridLT
  simp only [List.mem_map, List.mem_range]
  exact ⟨k, hk, hv.symm⟩

lemma gridLT_head {lo hi inc : ℝ} (hlt : lo < hi) (hinc : 0 < inc) :
    lo ∈ gridLT lo hi inc := by
  refine mem_gridLT 0 ?_ (by push_cast; ring)
  have hpos : (0 : ℝ) < (hi - lo) / inc := div_pos (by linarith) hinc
  have : (0 : ℤ) < ⌈(hi - lo) / inc⌉ := Int.ceil_pos.mpr hpos
  omega

lemma mem_gridLT_bounds {lo hi inc v : ℝ} (hinc : 0 < inc)
    (hv : v ∈ gridLT lo hi inc) : lo ≤ v ∧ v < hi := by
  unfold gridLT at hv
  simp only [List.mem_map, List.mem_range] at hv
  obtain ⟨k, hk, rfl⟩ := hv
  constructor
  · have : (0 : ℝ) ≤ (k : ℝ) * inc := mul_nonneg (Nat.cast_nonneg k) hinc.le
    linarith
  · have hkz : ((k : ℤ) + 1) ≤ ⌈(hi - lo) / inc⌉ := by omega
    have hceil : ((⌈(hi - lo) / inc⌉ : ℤ) : ℝ) < (hi - lo) / inc + 1 :=
      Int.ceil_lt_add_one _
    have hkr : ((k : ℝ) + 1) ≤ ((⌈(hi - lo) / inc⌉ : ℤ) : ℝ) := by exact_mod_cast hkz
    have h2 : (k : ℝ) < (hi - lo) / inc := by linarith
    have h3 : (k : ℝ) * inc < hi - lo := by
      rw [lt_div_iff₀ hinc] at h2
      linarith
    linarith

lemma mem_pixelPairs {minAz maxAz azInc minAlt maxAlt altInc : ℝ} {a b : ℝ}
    (ha : a ∈ gridLT minAz maxAz azInc) (hb : b ∈ gridLT minAlt maxAlt altInc) :
    (a, b) ∈ pixelPairs minAz maxAz azInc minAlt maxAlt altInc := by
  unfold pixelPairs
  exact List.mem_flatMap.mpr ⟨a, ha, List.mem_map.mpr ⟨b, hb, rfl⟩⟩

lemma mem_pixelPairs_elim {minAz maxAz azInc minAlt maxAlt altInc : ℝ}
    {p : ℝ × ℝ} (hp : p ∈ pixelPairs minAz maxAz azInc minAlt maxAlt altInc) :
    p.1 ∈ gridLT minAz maxAz azInc ∧ p.2 ∈ gridLT minAlt maxAlt altInc := by
  unfold pixelPairs at hp
  obtain ⟨a, ha, hmem⟩ := List.mem_flatMap.mp hp
  obtain ⟨b, hb, rfl⟩ := List.mem_map.mp hmem
  exact ⟨ha, hb⟩

end PolarAlign

namespace Rotations

lemma zero_vec_length : (V3.mk 0 0 0).length = 0 := by
  unfold V3.length
  norm_num

lemma getAxis_self (q : V3) : getAxis q q q = V3.mk 0 0 0 := by
  unfold getAxis
  have hsub : V3.sub q q = V3.mk 0 0 0 := by
    unfold V3.sub
    ext <;> simp
  rw [hsub]
  have hcr : V3.cross (V3.mk 0 0 0) (V3.mk 0 0 0) = V3.mk 0 0 0 := by
    unfold V3.cross
    ext <;> norm_num
  rw [hcr]
  unfold normalized
  rw [if_pos zero_vec_length]

end Rotations

/-! Claim theorems. -/

namespace PolarAlign

/-- C3: in processRefreshCoords the time-projection angle is exactly
(-15.041067 * elapsedSeconds) / 3600 degrees - the hardcoded sidereal rate
of 15.041067 degrees per hour applied negatively to the seconds elapsed
between the third sample's capture time and the new time - and the third
sample's Cartesian point is rotated around the original axis estimate by
exactly that angle before the adjustment search runs. -/
theorem processRefreshCoords_sidereal_projection (s : PolarAlign)
    (newAzAlt : ℝ × ℝ) (time : ℝ) :
    processRefreshCoords s newAzAlt time =
      refreshFromProjected s
        (Rotations.rotateAroundAxis (Rotations.azAlt2xyz (s.points.getD 2 (0, 0)))
          (Rotations.azAlt2xyz (s.azimuthCenter, s.altitudeCenter))
          ((-15.041067 * (time - s.times.getD 2 0)) / 3600))
        (Rotations.azAlt2xyz newAzAlt) ∧
    (-15.041067 * (time - s.times.getD 2 0)) / 3600 =
      -(15.041067 / 3600) * (time - s.times.getD 2 0) :=
  ⟨rfl, by ring⟩

/-- C4: processRefreshCoords fails exactly when the residual angular error
of the best-fit rotation found by the grid search exceeds 0.5 degrees, and
the three-pass pixelError fails exactly when the best candidate's corrected
pixel is more than 10 pixels from pixel2. -/
theorem failure_iff_threshold_exceeded :
    (∀ (s : PolarAlign) (newAzAlt : ℝ × ℝ) (time : ℝ),
      processRefreshCoords s newAzAlt time = none ↔
        0.5 < refreshResidual s newAzAlt time) ∧
    (∀ (s : PolarAlign) (f : ℝ → ℝ → Option (ℝ × ℝ)) (pixel2 : ℝ × ℝ),
      pixelError s f pixel2 = none ↔ 10 < pixelFinalDist s f pixel2) := by
  constructor
  · intro s newAzAlt time
    simp only [processRefreshCoords, refreshResidual, projectedThirdSample]
    split
    · rename_i h
      exact iff_of_true rfl h
    · rename_i h
      exact iff_of_false (Option.some_ne_none _) h
  · intro s f pixel2
    simp only [pixelError, pixelFinalDist]
    split
    · rename_i h
      exact iff_of_true rfl h
    · rename_i h
      exact iff_of_false (Option.some_ne_none _) h

/-- C8: a session never grows beyond three samples - addPoint fails and
leaves the state unchanged once three samples are stored and preserves the
at-most-three bound - and findAxis and refreshSolution fail whenever fewer
than three samples are stored. -/
theorem session_at_most_three_samples :
    (∀ (s : PolarAlign) (c : ℝ × ℝ) (t : ℝ) (ok : Bool),
      2 < s.points.length → addPoint s c t ok = (false, s)) ∧
    (∀ (s : PolarAlign) (c : ℝ × ℝ) (t : ℝ) (ok : Bool),
      s.points.length ≤ 3 → (addPoint s c t ok).2.points.length ≤ 3) ∧
    (∀ s : PolarAlign, s.points.length < 3 →
      findAxis s = (false, s) ∧ refreshSolution s = none) := by
  refine ⟨?_, ?_, ?_⟩
  · intro s c t ok h
    cases ok
    · simp [addPoint]
    · simp only [addPoint, Bool.not_true, Bool.false_eq_true, if_false]
      rw [if_pos h]
  · intro s c t ok h
    unfold addPoint
    split
    · exact h
    · split
      · exact h
      · rename_i h1 h2
        simp only [List.length_append, List.length_singleton]
        omega
  · intro s h
    constructor
    · simp only [findAxis]
      rw [if_pos (by omega)]
    · simp only [refreshSolution]
      rw [if_pos (by omega)]

/-- C9: processRefreshCoords reads the third sample and its time with no
bound check - the reads are in bounds exactly when three samples are stored
(given the addPoint invariants that the two sequences have equal length at
most three), the result depends only on the values read and not on the
sample count, and - unlike findAxis and refreshSolution, which fail when the
count is not three - no sample count makes processRefreshCoords fail. -/
theorem processRefreshCoords_unchecked_reads :
    (∀ s : PolarAlign, s.points.length ≤ 3 → s.times.length = s.points.length →
      (refreshReadsInBounds s ↔ s.points.length = 3)) ∧
    (∀ (s s' : PolarAlign) (newAzAlt : ℝ × ℝ) (time : ℝ),
      s.points.getD 2 (0, 0) = s'.points.getD 2 (0, 0) →
      s.times.getD 2 0 = s'.times.getD 2 0 →
      s.azimuthCenter = s'.azimuthCenter →
      s.altitudeCenter = s'.altitudeCenter →
      s.geoLat = s'.geoLat →
      processRefreshCoords s newAzAlt time = processRefreshCoords s' newAzAlt time) ∧
    (∀ s : PolarAlign, s.points.length ≠ 3 →
      findAxis s = (false, s) ∧ refreshSolution s = none) := by
  refine ⟨?_, ?_, ?_⟩
  · intro s h1 h2
    unfold refreshReadsInBounds
    omega
  · intro s s' newAzAlt time h1 h2 h3 h4 h5
    have hn : s.northernHemisphere = s'.northernHemisphere := by
      unfold northernHemisphere
      rw [h5]
    have hl : s.latDegrees = s'.latDegrees := by
      unfold latDegrees
      rw [h5]
    unfold processRefreshCoords
    rw [h1, h2, h3, h4, hn, hl]
  · intro s h
    constructor
    · simp only [findAxis]
      rw [if_pos h]
    · simp only [refreshSolution]
      rw [if_pos h]

end PolarAlign

namespace PolarAlign

lemma pixelPass1_bounds {r : ℝ} (h2 : 2 ≤ r) (h10 : r ≤ 10) :
    ((-r, -r) ∈ pixelPairs (-r) r 0.2 (-r) r 0.2) ∧
    ∀ p ∈ pixelPairs (-r) r 0.2 (-r) r 0.2,
      -10 ≤ p.1 ∧ p.1 < 10 ∧ -10 ≤ p.2 ∧ p.2 < 10 := by
  have hlt : -r < r := by linarith
  have hinc : (0 : ℝ) < 0.2 := by norm_num
  constructor
  · exact mem_pixelPairs (gridLT_head hlt hinc) (gridLT_head hlt hinc)
  · intro p hp
    obtain ⟨ha, hb⟩ := mem_pixelPairs_elim hp
    have hA := mem_gridLT_bounds hinc ha
    have hB := mem_gridLT_bounds hinc hb
    exact ⟨by linarith [hA.1], by linarith [hA.2], by linarith [hB.1], by linarith [hB.2]⟩

/-- C10: setMaxPixelSearchRange stores the absolute value of its argument
clamped into the interval from 2 to 10 degrees, so the coarse pass of
pixelError (whose sampled grid is the stored value's pass-1 pixelPairs
grid) always reaches out to at least plus-minus 2 degrees and its sampled
offsets never leave plus-minus 10 degrees. -/
theorem setMaxPixelSearchRange_clamped (s : PolarAlign) (d : ℝ) :
    (setMaxPixelSearchRange s d).maxPixelSearchRange = max 2 (min 10 |d|) ∧
    2 ≤ (setMaxPixelSearchRange s d).maxPixelSearchRange ∧
    (setMaxPixelSearchRange s d).maxPixelSearchRange ≤ 10 ∧
    ((-(setMaxPixelSearchRange s d).maxPixelSearchRange,
      -(setMaxPixelSearchRange s d).maxPixelSearchRange) ∈
        pixelPairs (-(setMaxPixelSearchRange s d).maxPixelSearchRange)
          (setMaxPixelSearchRange s d).maxPixelSearchRange 0.2
          (-(setMaxPixelSearchRange s d).maxPixelSearchRange)
          (setMaxPixelSearchRange s d).maxPixelSearchRange 0.2) ∧
    ∀ p ∈ pixelPairs (-(setMaxPixelSearchRange s d).maxPixelSearchRange)
          (setMaxPixelSearchRange s d).maxPixelSearchRange 0.2
          (-(setMaxPixelSearchRange s d).maxPixelSearchRange)
          (setMaxPixelSearchRange s d).maxPixelSearchRange 0.2,
      -10 ≤ p.1 ∧ p.1 < 10 ∧ -10 ≤ p.2 ∧ p.2 < 10 := by
  have hval : (setMaxPixelSearchRange s d).maxPixelSearchRange = max 2 (min 10 |d|) := by
    simp only [setMaxPixelSearchRange]
    split_ifs with h1 h2
    · show (2 : ℝ) = max 2 (min 10 |d|)
      rw [eq_comm, max_eq_left (le_trans (min_le_right _ _) h1.le)]
    · show (10 : ℝ) = max 2 (min 10 |d|)
      rw [min_eq_left h2.le, eq_comm, max_eq_right (by norm_num)]
    · show |d| = max 2 (min 10 |d|)
      rw [min_eq_right (le_of_not_lt h2), eq_comm, max_eq_right (le_of_not_lt h1)]
  have h2' : 2 ≤ (setMaxPixelSearchRange s d).maxPixelSearchRange := by
    rw [hval]
    exact le_max_left _ _
  have h10' : (setMaxPixelSearchRange s d).maxPixelSearchRange ≤ 10 := by
    rw [hval]
    exact max_le (by norm_num) (min_le_left _ _)
  exact ⟨hval, h2', h10', (pixelPass1_bounds h2' h10').1, (pixelPass1_bounds h2' h10').2⟩

/-- Witness for C10: for the call setMaxPixelSearchRange(5) the corner
offset pair (-5, -5) is sampled by the coarse pass and obeys the
plus-minus 10 degree bound. -/
theorem setMaxPixelSearchRange_clamped_witness :
    ((-5, -5) ∈ pixelPairs
        (-(setMaxPixelSearchRange ⟨[], [], 0, 0, 2, some 45⟩ 5).maxPixelSearchRange)
        (setMaxPixelSearchRange ⟨[], [], 0, 0, 2, some 45⟩ 5).maxPixelSearchRange 0.2
        (-(setMaxPixelSearchRange ⟨[], [], 0, 0, 2, some 45⟩ 5).maxPixelSearchRange)
        (setMaxPixelSearchRange ⟨[], [], 0, 0, 2, some 45⟩ 5).maxPixelSearchRange 0.2) ∧
    (-10 ≤ (-5 : ℝ) ∧ (-5 : ℝ) < 10 ∧ -10 ≤ (-5 : ℝ) ∧ (-5 : ℝ) < 10) := by
  have hr : (setMaxPixelSearchRange ⟨[], [], 0, 0, 2, some 45⟩ 5).maxPixelSearchRange = 5 := by
    unfold setMaxPixelSearchRange
    norm_num
  have hmem : ((-5 : ℝ), (-5 : ℝ)) ∈ pixelPairs
      (-(setMaxPixelSearchRange ⟨[], [], 0, 0, 2, some 45⟩ 5).maxPixelSearchRange)
      (setMaxPixelSearchRange ⟨[], [], 0, 0, 2, some 45⟩ 5).maxPixelSearchRange 0.2
      (-(setMaxPixelSearchRange ⟨[], [], 0, 0, 2, some 45⟩ 5).maxPixelSearchRange)
      (setMaxPixelSearchRange ⟨[], [], 0, 0, 2, some 45⟩ 5).maxPixelSearchRange 0.2 := by
    rw [hr]
    have hlt : (-5 : ℝ) < 5 := by norm_num
    have hinc : (0 : ℝ) < 0.2 := by norm_num
    exact mem_pixelPairs (gridLT_head hlt hinc) (gridLT_head hlt hinc)
  exact ⟨hmem,
    (setMaxPixelSearchRange_clamped ⟨[], [], 0, 0, 2, some 45⟩ 5).2.2.2.2 (-5, -5) hmem⟩

/-- Witness for C8: a three-sample session rejects a fourth sample
unchanged, a one-sample session stays within the three-sample bound, and
an empty session makes findAxis and refreshSolution fail. -/
theorem session_at_most_three_samples_witness :
    (2 < (⟨[(0, 0), (1, 1), (2, 2)], [0, 1, 2], 0, 0, 2, some 45⟩ : PolarAlign).points.length ∧
      addPoint ⟨[(0, 0), (1, 1), (2, 2)], [0, 1, 2], 0, 0, 2, some 45⟩ (3, 3) 3 true =
        (false, ⟨[(0, 0), (1, 1), (2, 2)], [0, 1, 2], 0, 0, 2, some 45⟩)) ∧
    ((⟨[(0, 0)], [0], 0, 0, 2, some 45⟩ : PolarAlign).points.length ≤ 3 ∧
      (addPoint ⟨[(0, 0)], [0], 0, 0, 2, some 45⟩ (3, 3) 3 true).2.points.length ≤ 3) ∧
    ((⟨[], [], 0, 0, 2, some 45⟩ : PolarAlign).points.length < 3 ∧
      findAxis ⟨[], [], 0, 0, 2, some 45⟩ = (false, ⟨[], [], 0, 0, 2, some 45⟩) ∧
      refreshSolution ⟨[], [], 0, 0, 2, some 45⟩ = none) :=
  ⟨⟨by simp, session_at_most_three_samples.1 _ (3, 3) 3 true (by simp)⟩,
   ⟨by simp, session_at_most_three_samples.2.1 _ (3, 3) 3 true (by simp)⟩,
   ⟨by simp, (session_at_most_three_samples.2.2 _ (by simp)).1,
    (session_at_most_three_samples.2.2 _ (by simp)).2⟩⟩

/-- Witness for C9: a full session's third-sample reads are in bounds; two
sessions of different sample counts but identical read values give the
same processRefreshCoords result; an empty session makes findAxis and
refreshSolution fail. -/
theorem processRefreshCoords_unchecked_reads_witness :
    ((⟨[(0, 0), (1, 1), (2, 2)], [0, 1, 2], 0, 0, 2, some 45⟩ : PolarAlign).points.length ≤ 3 ∧
      (⟨[(0, 0), (1, 1), (2, 2)], [0, 1, 2], 0, 0, 2, some 45⟩ : PolarAlign).times.length =
        (⟨[(0, 0), (1, 1), (2, 2)], [0, 1, 2], 0, 0, 2, some 45⟩ : PolarAlign).points.length ∧
      (refreshReadsInBounds ⟨[(0, 0), (1, 1), (2, 2)], [0, 1, 2], 0, 0, 2, some 45⟩ ↔
        (⟨[(0, 0), (1, 1), (2, 2)], [0, 1, 2], 0, 0, 2, some 45⟩ : PolarAlign).points.length = 3)) ∧
    (processRefreshCoords ⟨[(5, 5), (6, 6)], [1, 2], 3, 4, 2, some 45⟩ (7, 8) 9 =
      processRefreshCoords ⟨[], [], 3, 4, 2, some 45⟩ (7, 8) 9) ∧
    ((⟨[], [], 0, 0, 2, some 45⟩ : PolarAlign).points.length ≠ 3 ∧
      findAxis ⟨[], [], 0, 0, 2, some 45⟩ = (false, ⟨[], [], 0, 0, 2, some 45⟩) ∧
      refreshSolution ⟨[], [], 0, 0, 2, some 45⟩ = none) :=
  ⟨⟨by simp, by simp, processRefreshCoords_unchecked_reads.1 _ (by simp) (by simp)⟩,
   processRefreshCoords_unchecked_reads.2.1 _ _ (7, 8) 9 rfl rfl rfl rfl rfl,
   ⟨by simp, (processRefreshCoords_unchecked_reads.2.2 _ (by simp)).1,
    (processRefreshCoords_unchecked_reads.2.2 _ (by simp)).2⟩⟩

end PolarAlign

namespace PolarAlign

/-- C2 (amended): both calculateAzAltError and the error computation at
the end of processRefreshCoords apply one shared formula - altitude error
is the axis altitude minus the latitude in the north and plus it in the
south, azimuth error is the axis azimuth (plus 180 degrees in the south)
with a normalization that subtracts a non-negative multiple of 360 degrees
to bring the value to at most 180; the result lies in the half-open
interval from -180 exclusive to 180 inclusive whenever the
pre-normalization azimuth error exceeds -180 (in particular for axis
azimuths produced by the solver itself), but a pre-normalization value of
at most -180 is returned unchanged rather than being lifted into that
interval. -/
theorem azAltError_shared_formulas :
    (∀ s : PolarAlign, calculateAzAltError s =
      axisAzAltError s.northernHemisphere s.azimuthCenter s.altitudeCenter s.latDegrees) ∧
    (∀ (s : PolarAlign) (newAzAlt : ℝ × ℝ) (time : ℝ),
      (processRefreshCoords s newAzAlt time).map Prod.fst =
        (processRefreshCoords s newAzAlt time).map fun _ =>
          axisAzAltError s.northernHemisphere (refreshNewAxis s newAzAlt time).1
            (refreshNewAxis s newAzAlt time).2 s.latDegrees) ∧
    (∀ a : ℝ,
      (∃ k : ℤ, 0 ≤ k ∧ reduceAz a = a - 360 * k) ∧
      reduceAz a ≤ 180 ∧ (-180 < a → -180 < reduceAz a) ∧ (a ≤ -180 → reduceAz a = a)) := by
  refine ⟨?_, ?_, ?_⟩
  · intro s
    rfl
  · intro s newAzAlt time
    simp only [processRefreshCoords, refreshNewAxis, projectedThirdSample, axisAzAltError]
    split
    · rfl
    · rfl
  · intro a
    exact ⟨reduceAz_sub_multiple a, reduceAz_le a, fun h => reduceAz_gt h,
      fun h => reduceAz_eq_of_le (by linarith)⟩

/-- Witness for C2 (amended): the normalization at 200 degrees stays above
-180, and the value -200 (at most -180) is returned unchanged. -/
theorem azAltError_shared_formulas_witness :
    ((-180 : ℝ) < 200 ∧ (-180 : ℝ) < reduceAz 200) ∧
    ((-200 : ℝ) ≤ -180 ∧ reduceAz (-200) = -200) :=
  ⟨⟨by norm_num, (azAltError_shared_formulas.2.2 200).2.2.1 (by norm_num)⟩,
   ⟨by norm_num, (azAltError_shared_formulas.2.2 (-200)).2.2.2 (by norm_num)⟩⟩

/-- Counterexample to C2 as stated: for a northern-hemisphere session
whose axis estimate has azimuth -200 degrees (the claim quantifies over
any real azimuth value), calculateAzAltError returns azimuth error -200,
which does not lie in the half-open interval from -180 exclusive to 180
inclusive; the while loop only subtracts 360 from values above 180 and
never lifts values of at most -180. -/
theorem azError_normalization_counterexample :
    (calculateAzAltError ⟨[], [], -200, 50, 2, some 45⟩).1 = -200 ∧
    (calculateAzAltError ⟨[], [], -200, 50, 2, some 45⟩).1 ∉ Set.Ioc (-180 : ℝ) 180 := by
  have hn : (⟨[], [], -200, 50, 2, some 45⟩ : PolarAlign).northernHemisphere = true := by
    unfold northernHemisphere
    norm_num
  have h1 : (calculateAzAltError ⟨[], [], -200, 50, 2, some 45⟩).1 = -200 := by
    simp only [calculateAzAltError, hn, if_true, reduceAz]
    norm_num
  refine ⟨h1, ?_⟩
  rw [h1]
  simp only [Set.mem_Ioc]
  norm_num

/-- C5: findAxis fails, leaving the stored axis (indeed the whole state)
unchanged, whenever the normalized plane normal of the three samples has
length below 0.9; in particular three identical sample points make it
fail. -/
theorem findAxis_degenerate_failure :
    (∀ s : PolarAlign, s.points.length = 3 →
      (Rotations.getAxis (Rotations.azAlt2xyz (s.points.getD 0 (0, 0)))
        (Rotations.azAlt2xyz (s.points.getD 1 (0, 0)))
        (Rotations.azAlt2xyz (s.points.getD 2 (0, 0)))).length < 0.9 →
      findAxis s = (false, s)) ∧
    (∀ (s : PolarAlign) (p : ℝ × ℝ), s.points = [p, p, p] → findAxis s = (false, s)) := by
  have main : ∀ s : PolarAlign, s.points.length = 3 →
      (Rotations.getAxis (Rotations.azAlt2xyz (s.points.getD 0 (0, 0)))
        (Rotations.azAlt2xyz (s.points.getD 1 (0, 0)))
        (Rotations.azAlt2xyz (s.points.getD 2 (0, 0)))).length < 0.9 →
      findAxis s = (false, s) := by
    intro s h3 hlen
    simp only [findAxis]
    rw [if_neg (by omega), if_pos hlen]
  refine ⟨main, ?_⟩
  intro s p hp
  refine main s (by rw [hp]; rfl) ?_
  have h0 : s.points.getD 0 (0, 0) = p := by rw [hp]; rfl
  have h1 : s.points.getD 1 (0, 0) = p := by rw [hp]; rfl
  have h2 : s.points.getD 2 (0, 0) = p := by rw [hp]; rfl
  rw [h0, h1, h2, Rotations.getAxis_self, Rotations.zero_vec_length]
  norm_num

/-- Witness for C5: a session of three identical samples at azimuth 0,
altitude 0 makes findAxis fail with the state unchanged, and its fitted
normal has length 0, below the 0.9 threshold. -/
theorem findAxis_degenerate_failure_witness :
    ((⟨[(0, 0), (0, 0), (0, 0)], [0, 1, 2], 7, 8, 2, some 45⟩ : PolarAlign).points.length = 3 ∧
      (Rotations.getAxis
        (Rotations.azAlt2xyz ((⟨[(0, 0), (0, 0), (0, 0)], [0, 1, 2], 7, 8, 2, some 45⟩ :
          PolarAlign).points.getD 0 (0, 0)))
        (Rotations.azAlt2xyz ((⟨[(0, 0), (0, 0), (0, 0)], [0, 1, 2], 7, 8, 2, some 45⟩ :
          PolarAlign).points.getD 1 (0, 0)))
        (Rotations.azAlt2xyz ((⟨[(0, 0), (0, 0), (0, 0)], [0, 1, 2], 7, 8, 2, some 45⟩ :
          PolarAlign).points.getD 2 (0, 0)))).length < 0.9) ∧
    (⟨[(0, 0), (0, 0), (0, 0)], [0, 1, 2], 7, 8, 2, some 45⟩ : PolarAlign).points =
      [(0, 0), (0, 0), (0, 0)] ∧
    findAxis ⟨[(0, 0), (0, 0), (0, 0)], [0, 1, 2], 7, 8, 2, some 45⟩ =
      (false, ⟨[(0, 0), (0, 0), (0, 0)], [0, 1, 2], 7, 8, 2, some 45⟩) := by
  have hlen : (Rotations.getAxis (Rotations.azAlt2xyz ((0 : ℝ), (0 : ℝ)))
      (Rotations.azAlt2xyz (0, 0)) (Rotations.azAlt2xyz (0, 0))).length < 0.9 := by
    rw [Rotations.getAxis_self, Rotations.zero_vec_length]
    norm_num
  exact ⟨⟨by simp, hlen⟩, rfl,
    findAxis_degenerate_failure.2 ⟨[(0, 0), (0, 0), (0, 0)], [0, 1, 2], 7, 8, 2, some 45⟩
      (0, 0) rfl⟩

end PolarAlign

namespace PolarAlign

/-- C1: for a three-sample session, refreshSolution returns the direction
obtained by rotating the third sample's Cartesian point around the Y axis
by the altitude error and then around the Z axis by the azimuth error
returned by calculateAzAltError, and the altitude-only solution applies
only the Y rotation to the same point; by the last two conjuncts these
parameter values realize rotations of the azimuth/altitude coordinates by
minus the altitude error and minus the azimuth error respectively, which
is the sense in which the source comments and the spec describe them. -/
theorem refreshSolution_rotates_third_sample :
    (∀ (p1 p2 p3 : ℝ × ℝ) (t1 t2 t3 azC altC mpr : ℝ) (geo : Option ℝ),
      refreshSolution ⟨[p1, p2, p3], [t1, t2, t3], azC, altC, mpr, geo⟩ =
        some
          (Rotations.xyz2azAlt
            (Rotations.rotateAroundZ
              (Rotations.rotateAroundY (Rotations.azAlt2xyz p3)
                (calculateAzAltError ⟨[p1, p2, p3], [t1, t2, t3], azC, altC, mpr, geo⟩).2)
              (calculateAzAltError ⟨[p1, p2, p3], [t1, t2, t3], azC, altC, mpr, geo⟩).1),
           Rotations.xyz2azAlt
            (Rotations.rotateAroundY (Rotations.azAlt2xyz p3)
              (calculateAzAltError ⟨[p1, p2, p3], [t1, t2, t3], azC, altC, mpr, geo⟩).2))) ∧
    (∀ alt t : ℝ, Rotations.rotateAroundY (Rotations.azAlt2xyz (0, alt)) t =
      Rotations.azAlt2xyz (0, alt - t)) ∧
    (∀ az alt t : ℝ, Rotations.rotateAroundZ (Rotations.azAlt2xyz (az, alt)) t =
      Rotations.azAlt2xyz (az - t, alt)) := by
  refine ⟨?_, Rotations.rotateAroundY_azAlt, Rotations.rotateAroundZ_azAlt⟩
  intro p1 p2 p3 t1 t2 t3 azC altC mpr geo
  simp only [refreshSolution]
  rw [if_neg (by simp)]
  rfl

/-- C6: the refresh adjustment search runs exactly two grid passes: pass 1
is a getBestRotation search centered at (0, 0) whose range is 2.5 times
the great-circle angle clamped between 1 and 10 degrees, at steps of 1/60
degree; pass 2 is a getBestRotation search of range 4/60 degree at steps
of 5/3600 degree centered at the pass-1 optimum; each pass returns a
sampled grid pair whose residual is minimal over all pairs of its grid. -/
theorem getRotationAngles_two_pass_grid (fromV goal : V3) :
    (1 ≤ max 1 (min 10 (2.5 * |Rotations.getAngle fromV goal|)) ∧
      max 1 (min 10 (2.5 * |Rotations.getAngle fromV goal|)) ≤ 10) ∧
    getRotationAngles fromV goal =
      getBestRotation fromV goal
        (getBestRotation fromV goal 0 0
          (max 1 (min 10 (2.5 * |Rotations.getAngle fromV goal|))) (1 / 60)).1.2
        (getBestRotation fromV goal 0 0
          (max 1 (min 10 (2.5 * |Rotations.getAngle fromV goal|))) (1 / 60)).1.1
        (4 / 60) (5 / 3600) ∧
    ((getBestRotation fromV goal 0 0
        (max 1 (min 10 (2.5 * |Rotations.getAngle fromV goal|))) (1 / 60)).1 ∈
          rotationPairs 0 0
            (max 1 (min 10 (2.5 * |Rotations.getAngle fromV goal|))) (1 / 60) ∧
      (getBestRotation fromV goal 0 0
        (max 1 (min 10 (2.5 * |Rotations.getAngle fromV goal|))) (1 / 60)).2 =
        getResidual fromV
          (getBestRotation fromV goal 0 0
            (max 1 (min 10 (2.5 * |Rotations.getAngle fromV goal|))) (1 / 60)).1.1
          (getBestRotation fromV goal 0 0
            (max 1 (min 10 (2.5 * |Rotations.getAngle fromV goal|))) (1 / 60)).1.2 goal ∧
      ∀ p ∈ rotationPairs 0 0
          (max 1 (min 10 (2.5 * |Rotations.getAngle fromV goal|))) (1 / 60),
        (getBestRotation fromV goal 0 0
          (max 1 (min 10 (2.5 * |Rotations.getAngle fromV goal|))) (1 / 60)).2 ≤
          getResidual fromV p.1 p.2 goal) ∧
    ((getRotationAngles fromV goal).1 ∈
        rotationPairs
          (getBestRotation fromV goal 0 0
            (max 1 (min 10 (2.5 * |Rotations.getAngle fromV goal|))) (1 / 60)).1.2
          (getBestRotation fromV goal 0 0
            (max 1 (min 10 (2.5 * |Rotations.getAngle fromV goal|))) (1 / 60)).1.1
          (4 / 60) (5 / 3600) ∧
      (getRotationAngles fromV goal).2 =
        getResidual fromV (getRotationAngles fromV goal).1.1
          (getRotationAngles fromV goal).1.2 goal ∧
      ∀ p ∈ rotationPairs
          (getBestRotation fromV goal 0 0
            (max 1 (min 10 (2.5 * |Rotations.getAngle fromV goal|))) (1 / 60)).1.2
          (getBestRotation fromV goal 0 0
            (max 1 (min 10 (2.5 * |Rotations.getAngle fromV goal|))) (1 / 60)).1.1
          (4 / 60) (5 / 3600),
        (getRotationAngles fromV goal).2 ≤ getResidual fromV p.1 p.2 goal) := by
  have hRpos : (0 : ℝ) < max 1 (min 10 (2.5 * |Rotations.getAngle fromV goal|)) :=
    lt_of_lt_of_le one_pos (le_max_left _ _)
  have habs : |max 1 (min 10 (2.5 * |Rotations.getAngle fromV goal|))| =
      max 1 (min 10 (2.5 * |Rotations.getAngle fromV goal|)) := abs_of_pos hRpos
  have habs2 : |(4 : ℝ) / 60| = 4 / 60 := by
    rw [abs_of_pos]
    norm_num
  have s1 := getBestRotation_spec fromV goal 0 0
    (max 1 (min 10 (2.5 * |Rotations.getAngle fromV goal|))) (1 / 60)
  rw [habs] at s1
  have s2 := getBestRotation_spec fromV goal
    (getBestRotation fromV goal 0 0
      (max 1 (min 10 (2.5 * |Rotations.getAngle fromV goal|))) (1 / 60)).1.2
    (getBestRotation fromV goal 0 0
      (max 1 (min 10 (2.5 * |Rotations.getAngle fromV goal|))) (1 / 60)).1.1
    (4 / 60) (5 / 3600)
  rw [habs2] at s2
  have hdec : getRotationAngles fromV goal =
      getBestRotation fromV goal
        (getBestRotation fromV goal 0 0
          (max 1 (min 10 (2.5 * |Rotations.getAngle fromV goal|))) (1 / 60)).1.2
        (getBestRotation fromV goal 0 0
          (max 1 (min 10 (2.5 * |Rotations.getAngle fromV goal|))) (1 / 60)).1.1
        (4 / 60) (5 / 3600) := rfl
  refine ⟨⟨le_max_left _ _, max_le (by norm_num) (min_le_left _ _)⟩, hdec, s1, ?_⟩
  rw [hdec]
  exact s2

end PolarAlign

namespace PolarAlign

/-- Witness for C6: for the degenerate search where the projected and
observed points coincide at the unit x vector, the pass-1 range clamps to
1 degree, the corner pair (-1, -1) is sampled, and the pass-1 result's
residual is at most that pair's residual. -/
theorem getRotationAngles_two_pass_grid_witness :
    (((-1 : ℝ), (-1 : ℝ)) ∈ rotationPairs 0 0
        (max 1 (min 10 (2.5 * |Rotations.getAngle ⟨1, 0, 0⟩ ⟨1, 0, 0⟩|))) (1 / 60)) ∧
    (getBestRotation ⟨1, 0, 0⟩ ⟨1, 0, 0⟩ 0 0
        (max 1 (min 10 (2.5 * |Rotations.getAngle ⟨1, 0, 0⟩ ⟨1, 0, 0⟩|))) (1 / 60)).2 ≤
      getResidual ⟨1, 0, 0⟩ (-1) (-1) ⟨1, 0, 0⟩ := by
  have hlen : (V3.mk 1 0 0).length = 1 := by
    unfold V3.length
    rw [show ((1 : ℝ) ^ 2 + 0 ^ 2 + 0 ^ 2) = 1 by norm_num, Real.sqrt_one]
  have hangle : Rotations.getAngle ⟨1, 0, 0⟩ ⟨1, 0, 0⟩ = 0 := by
    unfold Rotations.getAngle
    rw [hlen]
    rw [show V3.dot ⟨1, 0, 0⟩ ⟨1, 0, 0⟩ = 1 by unfold V3.dot; norm_num]
    rw [show (1 : ℝ) / (1 * 1) = 1 by norm_num, Real.arccos_one]
    unfold Rotations.r2d
    norm_num
  have hR : max 1 (min 10 (2.5 * |Rotations.getAngle ⟨1, 0, 0⟩ ⟨1, 0, 0⟩|)) = 1 := by
    rw [hangle]
    norm_num
  have hmem : ((-1 : ℝ), (-1 : ℝ)) ∈ rotationPairs 0 0
      (max 1 (min 10 (2.5 * |Rotations.getAngle ⟨1, 0, 0⟩ ⟨1, 0, 0⟩|))) (1 / 60) := by
    rw [hR]
    exact mem_rotationPairs (mem_gridLE 0 (Nat.zero_le _) (by norm_num))
      (mem_gridLE 0 (Nat.zero_le _) (by norm_num))
  exact ⟨hmem, (getRotationAngles_two_pass_grid ⟨1, 0, 0⟩ ⟨1, 0, 0⟩).2.2.1.2.2 (-1, -1) hmem⟩

lemma flipAxis_sign (north : Bool) (axis : V3) :
    (north = true → 0 ≤ (flipAxis north axis).x) ∧
    (north = false → (flipAxis north axis).x ≤ 0) := by
  constructor
  · intro h
    subst h
    unfold flipAxis
    split
    · rename_i hc
      rcases hc with ⟨_, hx⟩ | ⟨hfalse, _⟩
      · show 0 ≤ -axis.x
        linarith
      · exact absurd hfalse (by simp)
    · rename_i hc
      push_neg at hc
      exact hc.1 rfl
  · intro h
    subst h
    unfold flipAxis
    split
    · rename_i hc
      rcases hc with ⟨hfalse, _⟩ | ⟨_, hx⟩
      · exact absurd hfalse (by simp)
      · show -axis.x ≤ 0
        linarith
    · rename_i hc
      push_neg at hc
      exact hc.2 rfl

/-- C7: whenever findAxis succeeds, the stored axis estimate is the
azimuth/altitude of the hemisphere-disambiguated (sign-flipped when
needed) fitted normal, whose Cartesian x component is non-negative in the
northern hemisphere and non-positive in the southern hemisphere; the sign
property of the flip holds for every axis vector, hence for every choice
of the three samples that passes the degeneracy check. -/
theorem findAxis_hemisphere_invariant (s : PolarAlign) :
    ((findAxis s).1 = true →
      (s.northernHemisphere = true →
        0 ≤ (flipAxis s.northernHemisphere
          (Rotations.getAxis (Rotations.azAlt2xyz (s.points.getD 0 (0, 0)))
            (Rotations.azAlt2xyz (s.points.getD 1 (0, 0)))
            (Rotations.azAlt2xyz (s.points.getD 2 (0, 0))))).x) ∧
      (s.northernHemisphere = false →
        (flipAxis s.northernHemisphere
          (Rotations.getAxis (Rotations.azAlt2xyz (s.points.getD 0 (0, 0)))
            (Rotations.azAlt2xyz (s.points.getD 1 (0, 0)))
            (Rotations.azAlt2xyz (s.points.getD 2 (0, 0))))).x ≤ 0) ∧
      (findAxis s).2.azimuthCenter =
        (Rotations.xyz2azAlt (flipAxis s.northernHemisphere
          (Rotations.getAxis (Rotations.azAlt2xyz (s.points.getD 0 (0, 0)))
            (Rotations.azAlt2xyz (s.points.getD 1 (0, 0)))
            (Rotations.azAlt2xyz (s.points.getD 2 (0, 0)))))).1 ∧
      (findAxis s).2.altitudeCenter =
        (Rotations.xyz2azAlt (flipAxis s.northernHemisphere
          (Rotations.getAxis (Rotations.azAlt2xyz (s.points.getD 0 (0, 0)))
            (Rotations.azAlt2xyz (s.points.getD 1 (0, 0)))
            (Rotations.azAlt2xyz (s.points.getD 2 (0, 0)))))).2) ∧
    (∀ (north : Bool) (axis : V3),
      (north = true → 0 ≤ (flipAxis north axis).x) ∧
      (north = false → (flipAxis north axis).x ≤ 0)) := by
  refine ⟨?_, flipAxis_sign⟩
  by_cases hlen : s.points.length ≠ 3
  · intro h
    exfalso
    simp only [findAxis] at h
    rw [if_pos hlen] at h
    exact absurd h (by simp)
  · by_cases hax : (Rotations.getAxis (Rotations.azAlt2xyz (s.points.getD 0 (0, 0)))
        (Rotations.azAlt2xyz (s.points.getD 1 (0, 0)))
        (Rotations.azAlt2xyz (s.points.getD 2 (0, 0)))).length < 0.9
    · intro h
      exfalso
      simp only [findAxis] at h
      rw [if_neg hlen, if_pos hax] at h
      exact absurd h (by simp)
    · intro _
      have heq : findAxis s = (true,
          { s with
            azimuthCenter := (Rotations.xyz2azAlt (flipAxis s.northernHemisphere
              (Rotations.getAxis (Rotations.azAlt2xyz (s.points.getD 0 (0, 0)))
                (Rotations.azAlt2xyz (s.points.getD 1 (0, 0)))
                (Rotations.azAlt2xyz (s.points.getD 2 (0, 0)))))).1,
            altitudeCenter := (Rotations.xyz2azAlt (flipAxis s.northernHemisphere
              (Rotations.getAxis (Rotations.azAlt2xyz (s.points.getD 0 (0, 0)))
                (Rotations.azAlt2xyz (s.points.getD 1 (0, 0)))
                (Rotations.azAlt2xyz (s.points.getD 2 (0, 0)))))).2 }) := by
        simp only [findAxis]
        rw [if_neg hlen, if_neg hax]
      refine ⟨(flipAxis_sign _ _).1, (flipAxis_sign _ _).2, ?_, ?_⟩
      · rw [heq]
      · rw [heq]

end PolarAlign

namespace PolarAlign

/-- Witness for C7: a northern-hemisphere session sampled at azimuth 0
altitude 0, azimuth 90 altitude 0 and azimuth 0 altitude 90 makes
findAxis succeed, and the disambiguated axis has non-negative x. -/
theorem findAxis_hemisphere_invariant_witness :
    (findAxis ⟨[(0, 0), (90, 0), (0, 90)], [0, 1, 2], 0, 0, 2, some 45⟩).1 = true ∧
    (⟨[(0, 0), (90, 0), (0, 90)], [0, 1, 2], 0, 0, 2,
        some 45⟩ : PolarAlign).northernHemisphere = true ∧
    0 ≤ (flipAxis
      (⟨[(0, 0), (90, 0), (0, 90)], [0, 1, 2], 0, 0, 2, some 45⟩ :
        PolarAlign).northernHemisphere
      (Rotations.getAxis
        (Rotations.azAlt2xyz
          ((⟨[(0, 0), (90, 0), (0, 90)], [0, 1, 2], 0, 0, 2,
            some 45⟩ : PolarAlign).points.getD 0 (0, 0)))
        (Rotations.azAlt2xyz
          ((⟨[(0, 0), (90, 0), (0, 90)], [0, 1, 2], 0, 0, 2,
            some 45⟩ : PolarAlign).points.getD 1 (0, 0)))
        (Rotations.azAlt2xyz
          ((⟨[(0, 0), (90, 0), (0, 90)], [0, 1, 2], 0, 0, 2,
            some 45⟩ : PolarAlign).points.getD 2 (0, 0))))).x := by
  have h90 : Rotations.d2r 90 = Real.pi / 2 := by
    unfold Rotations.d2r
    ring
  have haz1 : Rotations.azAlt2xyz ((0 : ℝ), (0 : ℝ)) = ⟨1, 0, 0⟩ := by
    unfold Rotations.azAlt2xyz
    ext <;> simp [Rotations.d2r_zero]
  have haz2 : Rotations.azAlt2xyz ((90 : ℝ), (0 : ℝ)) = ⟨0, -1, 0⟩ := by
    unfold Rotations.azAlt2xyz
    ext <;> simp [h90, Rotations.d2r_zero]
  have haz3 : Rotations.azAlt2xyz ((0 : ℝ), (90 : ℝ)) = ⟨0, 0, 1⟩ := by
    unfold Rotations.azAlt2xyz
    ext <;> simp [h90, Rotations.d2r_zero]
  have hcr : V3.cross (V3.sub ⟨0, -1, 0⟩ ⟨1, 0, 0⟩) (V3.sub ⟨0, 0, 1⟩ ⟨0, -1, 0⟩) =
      V3.mk (-1) 1 (-1) := by
    unfold V3.cross V3.sub
    ext <;> norm_num
  have hlen3 : (V3.mk (-1) 1 (-1)).length = Real.sqrt 3 := by
    unfold V3.length
    norm_num
  have hne : (V3.mk (-1) 1 (-1)).length ≠ 0 := by
    rw [hlen3]
    exact ne_of_gt (Real.sqrt_pos.mpr (by norm_num))
  have hget : Rotations.getAxis
      (Rotations.azAlt2xyz
        ((⟨[(0, 0), (90, 0), (0, 90)], [0, 1, 2], 0, 0, 2,
          some 45⟩ : PolarAlign).points.getD 0 (0, 0)))
      (Rotations.azAlt2xyz
        ((⟨[(0, 0), (90, 0), (0, 90)], [0, 1, 2], 0, 0, 2,
          some 45⟩ : PolarAlign).points.getD 1 (0, 0)))
      (Rotations.azAlt2xyz
        ((⟨[(0, 0), (90, 0), (0, 90)], [0, 1, 2], 0, 0, 2,
          some 45⟩ : PolarAlign).points.getD 2 (0, 0))) =
      Rotations.normalized (V3.mk (-1) 1 (-1)) := by
    show Rotations.getAxis (Rotations.azAlt2xyz ((0 : ℝ), (0 : ℝ)))
      (Rotations.azAlt2xyz ((90 : ℝ), (0 : ℝ)))
      (Rotations.azAlt2xyz ((0 : ℝ), (90 : ℝ))) = Rotations.normalized (V3.mk (-1) 1 (-1))
    rw [haz1, haz2, haz3]
    unfold Rotations.getAxis
    rw [hcr]
  have hax : ¬(Rotations.getAxis
      (Rotations.azAlt2xyz
        ((⟨[(0, 0), (90, 0), (0, 90)], [0, 1, 2], 0, 0, 2,
          some 45⟩ : PolarAlign).points.getD 0 (0, 0)))
      (Rotations.azAlt2xyz
        ((⟨[(0, 0), (90, 0), (0, 90)], [0, 1, 2], 0, 0, 2,
          some 45⟩ : PolarAlign).points.getD 1 (0, 0)))
      (Rotations.azAlt2xyz
        ((⟨[(0, 0), (90, 0), (0, 90)], [0, 1, 2], 0, 0, 2,
          some 45⟩ : PolarAlign).points.getD 2 (0, 0)))).length < 0.9 := by
    rw [hget, Rotations.length_normalized hne]
    norm_num
  have hlen : ¬((⟨[(0, 0), (90, 0), (0, 90)], [0, 1, 2], 0, 0, 2,
      some 45⟩ : PolarAlign).points.length ≠ 3) := by simp
  have htrue : (findAxis ⟨[(0, 0), (90, 0), (0, 90)], [0, 1, 2], 0, 0, 2, some 45⟩).1 =
      true := by
    simp only [findAxis]
    rw [if_neg hlen, if_neg hax]
  have hnorth : (⟨[(0, 0), (90, 0), (0, 90)], [0, 1, 2], 0, 0, 2,
      some 45⟩ : PolarAlign).northernHemisphere = true := by
    unfold northernHemisphere
    norm_num
  exact ⟨htrue, hnorth,
    ((findAxis_hemisphere_invariant _).1 htrue).1 hnorth⟩

end PolarAlign
